import Mathlib

/-!
# Verification of the duplicate/similarity detection core

A shallow embedding, in Lean 4, of the algorithmic core of the
AI GitHub ticket system backend:

* `be/app/ai/categorizer.py` — rule-based issue categorization,
* `be/app/core/similarity.py` — guarded cosine similarity,
* `be/app/vector/chroma_client.py` — per-repository vector store wrapper,
* `be/app/core/chroma_manager.py` — vector store manager with neighbor search,
* `be/app/api/github.py` — `analyze_single_issue` similarity classification,
* `be/app/services/cache_service.py` — sync orchestration and analysis.

Modelling conventions:

* Python floats are modelled as exact rationals (`ℚ`); `round(x, n)` is
  modelled by `pyRound2`/`pyRound3` (round half-up at the given decimal;
  Python rounds half-to-even on binary floats, the two agree away from
  exact half-way points and every concrete value used below is away from
  a half-way point).
* Python dicts that are used as ordered key/value maps are modelled as
  association lists in insertion order.
* External services (the sentence-embedding model, the ChromaDB client,
  GitHub, MongoDB) are modelled as explicit data or oracle records; the
  code under verification is the Python in this repository, translated
  function by function.
-/

/- The Batteries rational operations are `@[irreducible]`; re-enable
definitional unfolding so that concrete rational computations can be
settled by `decide`. -/
attribute [local semireducible] Rat.mul Rat.add Rat.sub Rat.inv

/-- Round half-up at two decimal places: models Python `round(x, 2)`
on the exact rational value (see the module comment on half-way points). -/
def pyRound2 (x : ℚ) : ℚ := (Rat.floor (x * 100 + 1/2) : ℚ) / 100

/-- Round half-up at three decimal places: models Python `round(x, 3)`. -/
def pyRound3 (x : ℚ) : ℚ := (Rat.floor (x * 1000 + 1/2) : ℚ) / 1000

theorem ratFloor_eq_intFloor (q : ℚ) : Rat.floor q = ⌊q⌋ := by
  rw [Rat.floor_def', Rat.floor_def]

/-! ## Word-level text model

The categorizer compiles, per category, the regex
`\b(kw₁|kw₂|…)\b` (case-insensitive) and counts `findall` matches over
`f"{title} {body}".lower()`.  We model the text at word granularity:
a text is split at single spaces into words, and a keyword (possibly a
multi-word phrase) matches when its words are a contiguous run of the
text's words.  On space-separated word sequences this coincides with the
regex semantics (`\b` holds exactly at the space-delimited word edges,
and `re.findall` scans left to right, at each position trying the
alternatives — the keywords — in listed order, consuming each match). -/

/-- Split a character list at spaces, accumulating the current word
(reversed).  Models Python text splitting at `" "`. -/
def splitSpacesAux (cur : List Char) : List Char → List String
  | [] => [String.mk cur.reverse]
  | c :: cs =>
    if c = ' ' then String.mk cur.reverse :: splitSpacesAux [] cs
    else splitSpacesAux (c :: cur) cs

/-- The words of a string, split at spaces. -/
def wordsOf (s : String) : List String := splitSpacesAux [] s.data

/-- The words of `s.lower()`: ASCII lowercasing, then splitting at
spaces.  Models the categorizer's `text = f"{title} {body}".lower()`
followed by word-boundary matching. -/
def lowerWords (s : String) : List String :=
  splitSpacesAux [] (s.data.map Char.toLower)

/-- One entry of `IssueCategori.CATEGORY_PATTERNS`: a category name, its
keyword list, and its weight. -/
structure CategoryPattern where
  name : String
  keywords : List String
  weight : ℚ
deriving DecidableEq, Repr

/-- The table `IssueCategori.CATEGORY_PATTERNS` from `be/app/ai/categorizer.py`,
in source (insertion) order. -/
def categoryPatterns : List CategoryPattern :=
  [ { name := "bug"
    , keywords :=
        [ "bug", "error", "issue", "problem", "broken", "crash", "fail"
        , "exception", "not working", "doesn\x27t work", "incorrect", "wrong"
        , "unexpected", "regression", "defect", "fault" ]
    , weight := 1 }
  , { name := "feature"
    , keywords :=
        [ "feature", "enhancement", "add", "implement", "support", "new"
        , "request", "proposal", "improvement", "would like", "could we"
        , "ability to", "allow", "enable" ]
    , weight := 1 }
  , { name := "documentation"
    , keywords :=
        [ "docs", "documentation", "readme", "guide", "tutorial", "example"
        , "comment", "typo", "spelling", "grammar", "clarify", "explain" ]
    , weight := 9/10 }
  , { name := "security"
    , keywords :=
        [ "security", "vulnerability", "exploit", "xss", "sql injection"
        , "csrf", "authentication", "authorization", "cve", "sensitive"
        , "leak", "exposure", "unsafe" ]
    , weight := 12/10 }
  , { name := "performance"
    , keywords :=
        [ "performance", "slow", "speed", "optimize", "memory", "cpu"
        , "lag", "latency", "bottleneck", "efficiency", "faster", "cache" ]
    , weight := 1 }
  , { name := "question"
    , keywords :=
        [ "question", "how to", "how do i", "help", "what is", "why"
        , "when", "where", "which", "clarification", "confused", "understand" ]
    , weight := 8/10 }
  , { name := "dependency"
    , keywords :=
        [ "dependency", "dependencies", "package", "npm", "pip", "yarn"
        , "upgrade", "update", "version", "outdated", "deprecat" ]
    , weight := 9/10 }
  , { name := "testing"
    , keywords :=
        [ "test", "testing", "unit test", "integration test", "e2e"
        , "coverage", "mock", "fixture", "assertion", "spec" ]
    , weight := 9/10 }
  , { name := "refactor"
    , keywords :=
        [ "refactor", "cleanup", "clean up", "reorganize", "restructure"
        , "simplify", "improve code", "code quality", "technical debt" ]
    , weight := 8/10 } ]

/-- First keyword (in listed order) whose word sequence is a leading run
of `toks`; returns the matched word count.  Models the regex engine
trying the alternation's branches in order at one position. -/
def matchAt (kwts : List (List String)) (toks : List String) : Option ℕ :=
  kwts.findSome? fun k => if k.isPrefixOf toks then some k.length else none

/-- Scan worker for `findallCount`, structurally recursive on a fuel
bound (any fuel at least the word count gives the scan's value: every
step consumes at least one word). -/
def findallCountAux (kwts : List (List String)) : ℕ → List String → ℕ
  | 0, _ => 0
  | _, [] => 0
  | fuel + 1, t :: rest =>
    match matchAt kwts (t :: rest) with
    | some n => findallCountAux kwts fuel (List.drop (n - 1) rest) + 1
    | none => findallCountAux kwts fuel rest

/-- Number of `findall` matches of the keyword alternation over the word
list: scan left to right, at each word try the keywords in order; on a
match consume the matched words and continue after them. -/
def findallCount (kwts : List (List String)) (toks : List String) : ℕ :=
  findallCountAux kwts toks.length toks

/-- Per-category scores over the words of the issue text: score =
(match count) × (category weight), keeping only categories with a
positive score, in `categoryPatterns` (dict insertion) order.  Models
the `scores` dict built by `IssueCategori.categorize`. -/
def categoryScores (toks : List String) : List (String × ℚ) :=
  categoryPatterns.filterMap fun p =>
    let score : ℚ := (findallCount (p.keywords.map wordsOf) toks : ℚ) * p.weight
    if 0 < score then some (p.name, score) else none

/-- Insert into a sorted list, before the first element that `le` does
not place in front of `x`. -/
def insertBy {α : Type} (le : α → α → Bool) (x : α) : List α → List α
  | [] => [x]
  | y :: ys => if le x y then x :: y :: ys else y :: insertBy le x ys

/-- Stable insertion sort: models Python's stable `sorted`/`list.sort`.
`le x y` means "`x` may come before `y`"; ties keep their input order. -/
def sortBy {α : Type} (le : α → α → Bool) : List α → List α
  | [] => []
  | x :: xs => insertBy le x (sortBy le xs)

/-- Result record of `IssueCategori.categorize`. -/
structure CategorizeResult where
  primary_category : String
  categories : List String
  confidence : ℚ
  scores : List (String × ℚ)
deriving DecidableEq, Repr

/-- The function `IssueCategori.categorize(title, body)` from
`be/app/ai/categorizer.py`: score every category over the lowercased
`title + " " + body`, fall back to `"general"` when nothing matches,
otherwise sort scores descending (stably, as Python's `sorted` with
`reverse=True`), take every category scoring at least 30% of the top
score, and report `confidence = min(top/(total+1), 1)` rounded to two
decimals.  The `[] =>` branch is exactly the `if not scores` fallback:
`sortBy` returns `[]` iff its input is `[]`. -/
def categorize (title : String) (body : String := "") : CategorizeResult :=
  let toks := lowerWords (title ++ " " ++ body)
  let scores := categoryScores toks
  match sortBy (fun a b => decide (b.2 ≤ a.2)) scores with
  | [] =>
    { primary_category := "general", categories := ["general"]
    , confidence := 1/2, scores := [] }
  | (pc, ps) :: rest =>
    let sortedCats := (pc, ps) :: rest
    let threshold := ps * (3/10)
    let significant := (sortedCats.filter fun x => decide (threshold ≤ x.2)).map Prod.fst
    let total := (scores.map Prod.snd).sum
    let confidence := min (ps / (total + 1)) 1
    { primary_category := pc
    , categories := significant
    , confidence := pyRound2 confidence
    , scores := scores.map fun x => (x.1, pyRound2 x.2) }

/-- The pre-rounding confidence `min(primary_score / (total_score + 1), 1.0)`
computed by `IssueCategori.categorize` (the value it rounds to two
decimals before returning); `1/2` in the no-match fallback branch. -/
def rawConfidence (title : String) (body : String := "") : ℚ :=
  let toks := lowerWords (title ++ " " ++ body)
  let scores := categoryScores toks
  match sortBy (fun a b => decide (b.2 ≤ a.2)) scores with
  | [] => 1/2
  | (_, ps) :: _ => min (ps / ((scores.map Prod.snd).sum + 1)) 1

/-! ## Cosine similarity (`be/app/core/similarity.py`)

`cosine(a, b)` guards against zero vectors: `np.linalg.norm(v) == 0`
holds exactly when the sum of squares of `v` is `0`, so the guard is
modelled on the rational sum of squares; the division branch divides by
the product of the real square roots of the two sums of squares. -/

/-- Models `np.dot(a, b)` over exact rationals. -/
def dotQ (a b : List ℚ) : ℚ := (List.zipWith (fun x y => x * y) a b).sum

/-- The square of `np.linalg.norm(a)`: the sum of squares of the
entries (`norm(a) == 0` iff this is `0`). -/
def normSq (a : List ℚ) : ℚ := (a.map fun x => x * x).sum

/-- The function `cosine(a, b)` from `be/app/core/similarity.py`: `0.0` when either
norm is zero, otherwise `dot / (norm * norm)` over the reals. -/
noncomputable def cosine (a b : List ℚ) : ℝ :=
  if normSq a = 0 ∨ normSq b = 0 then 0
  else (dotQ a b : ℝ) / (Real.sqrt (normSq a) * Real.sqrt (normSq b))

/-! ## Similarity thresholds

The threshold expressions of `analyze_single_issue`
(`be/app/api/github.py` lines 93–97) and of
`CacheService._analyze_issue` (`be/app/services/cache_service.py`
lines 382–389), over the exact `max_similarity` value. -/

/-- The expression `"high" if m >= 0.85 else "medium" if m >= 0.7 else "low"` —
the criticality expression shared verbatim by `analyze_single_issue`
and `CacheService._analyze_issue`. -/
def criticalityOf (m : ℚ) : String :=
  if 85/100 ≤ m then "high" else if 7/10 ≤ m then "medium" else "low"

/-- The expression `"duplicate" if m >= 0.85 else "related" if m >= 0.7 else "new"` —
the classification expression of `analyze_single_issue`. -/
def classificationOf (m : ℚ) : String :=
  if 85/100 ≤ m then "duplicate" else if 7/10 ≤ m then "related" else "new"

/-- The reuse-type expression of `analyze_single_issue`. -/
def reuseTypeOf (m : ℚ) : String :=
  if 9/10 ≤ m then "direct" else if 8/10 ≤ m then "adapt"
  else if 7/10 ≤ m then "reference" else "minimal"

/-- The classification expression of `CacheService._analyze_issue`:
`"duplicate"` at `m >= 0.85`, `"related"` already at `m >= 0.6`
(not `0.7`), else `"new"`. -/
def cacheClassificationOf (m : ℚ) : String :=
  if 85/100 ≤ m then "duplicate" else if 6/10 ≤ m then "related" else "new"

/-! ## `analyze_single_issue` (`be/app/api/github.py`)

The function's external effects are modelled by an environment record:
the collection count, the query embedding produced by the embedder, the
rows returned by `chroma.query` (id, optional stored embedding, and the
`title`/`number` metadata, position by position), and the numeric value
of the local `cosine_similarity` on float vectors, taken as an abstract
rational-valued function.  With these total, the function's own control
flow (the `try` body) is total; the `except` fallback is unreachable in
the model and is not represented. -/

/-- One position of the `chroma.query` result in `analyze_single_issue`:
`results["ids"][0][i]`, `results["embeddings"][0][i]` (possibly `None`)
and the `title` / `number` metadata fields. -/
structure QueryRow where
  id : String
  embedding : Option (List ℚ)
  title : String
  number : ℕ
deriving DecidableEq, Repr

/-- An entry of the `similar_issues` list built by
`analyze_single_issue`. -/
structure SimilarIssue where
  id : String
  number : ℕ
  title : String
  similarity : ℚ
deriving DecidableEq, Repr

/-- The `ai_analysis` part of an `analyze_single_issue` result. -/
structure AiAnalysis where
  type : String
  criticality : String
  confidence : ℚ
  similar_issues : List SimilarIssue
deriving DecidableEq, Repr

/-- The `duplicate_info` part of an `analyze_single_issue` result. -/
structure DuplicateInfo where
  classification : String
  similarity : ℚ
  reuse_type : String
deriving DecidableEq, Repr

/-- A complete `analyze_single_issue` result. -/
structure AnalyzeResult where
  ai_analysis : AiAnalysis
  duplicate_info : DuplicateInfo
deriving DecidableEq, Repr

/-- Environment of one `analyze_single_issue` call (see the section
comment). -/
structure AnalyzeEnv where
  count : ℕ
  embedding : List ℚ
  rows : List QueryRow
  sim : List ℚ → List ℚ → ℚ

/-- The first loop of `analyze_single_issue`: `max_similarity` starts at
`0.0` and is folded over the result rows, skipping rows whose metadata
`title` equals the query title (self-match rule) and rows with no stored
embedding. -/
def maxSimilarityScan (sim : List ℚ → List ℚ → ℚ) (queryEmb : List ℚ)
    (title : String) (rows : List QueryRow) : ℚ :=
  rows.foldl (fun acc r =>
    if r.title = title then acc
    else match r.embedding with
      | none => acc
      | some e => max acc (sim queryEmb e)) 0

/-- The second loop of `analyze_single_issue`: collect every row with a
stored embedding whose metadata `title` differs from the query title and
whose similarity is at least `0.5`, rounding each similarity to three
decimals. -/
def similarCandidates (sim : List ℚ → List ℚ → ℚ) (queryEmb : List ℚ)
    (title : String) (rows : List QueryRow) : List SimilarIssue :=
  rows.filterMap fun r =>
    if r.title = title then none
    else match r.embedding with
      | none => none
      | some e =>
        let s := sim queryEmb e
        if 1/2 ≤ s then some ⟨r.id, r.number, r.title, pyRound3 s⟩ else none

/-- The function `analyze_single_issue(owner, repo, issue)` from
`be/app/api/github.py`: categorize; if the repository collection has at
most one entry return the fixed low/new/0 result; otherwise compute
`max_similarity` and the `similar_issues` list over the query rows
(excluding title-equal rows), sort the candidates by similarity
descending (Python's stable sort), keep the top 5, and classify by the
fixed thresholds. -/
def analyzeSingleIssue (env : AnalyzeEnv) (title : String) (body : String) :
    AnalyzeResult :=
  let categoryInfo := categorize title body
  let primaryCategory := categoryInfo.primary_category
  if env.count ≤ 1 then
    { ai_analysis :=
        { type := primaryCategory, criticality := "low"
        , confidence := 0, similar_issues := [] }
    , duplicate_info :=
        { classification := "new", similarity := 0, reuse_type := "minimal" } }
  else
    let maxSim := maxSimilarityScan env.sim env.embedding title env.rows
    let similar :=
      (sortBy (fun a b => decide (b.similarity ≤ a.similarity))
        (similarCandidates env.sim env.embedding title env.rows)).take 5
    { ai_analysis :=
        { type := primaryCategory, criticality := criticalityOf maxSim
        , confidence := pyRound2 maxSim, similar_issues := similar }
    , duplicate_info :=
        { classification := classificationOf maxSim
        , similarity := pyRound2 maxSim, reuse_type := reuseTypeOf maxSim } }

/-! ## `CacheService._analyze_issue` (`be/app/services/cache_service.py`)

Step 1 categorizes (modelled by `categorize`); step 2 calls
`chroma_manager.find_similar_issues`, whose outcome — a list of similar
issues, or an exception — is the model's input; step 3 classifies.  On a
step-2 exception the defaults `similar_issues = []`,
`max_similarity = 0.0` are kept. -/

/-- An entry of a `ChromaManager.find_similar_issues` result:
`{number, title, similarity}`. -/
structure CMSimilarIssue where
  number : ℤ
  title : String
  similarity : ℚ
deriving DecidableEq, Repr

/-- The `ai_analysis` part of a `CacheService._analyze_issue` result. -/
structure CacheAiAnalysis where
  type : String
  criticality : String
  confidence : ℚ
  similar_issues : List CMSimilarIssue
deriving DecidableEq, Repr

/-- The `duplicate_info` part of a `CacheService._analyze_issue`
result. -/
structure CacheDuplicateInfo where
  classification : String
  similarity : ℚ
  similar_issues : List CMSimilarIssue
deriving DecidableEq, Repr

/-- A complete `CacheService._analyze_issue` result. -/
structure CacheAnalysisResult where
  category : String
  ai_analysis : CacheAiAnalysis
  duplicate_info : CacheDuplicateInfo
deriving DecidableEq, Repr

/-- Python `max(issue["similarity"] for issue in l)` guarded by
`if similar_issues:` — `0.0` for the empty list. -/
def pyMaxSimilarity : List CMSimilarIssue → ℚ
  | [] => 0
  | x :: xs => xs.foldl (fun a y => max a y.similarity) x.similarity

/-- The method `CacheService._analyze_issue(owner, repo, issue_data)`:
`similarRes` is the outcome of the `find_similar_issues` call inside the
step-2 `try` (`Except.error` models any exception, after which the
defaults are kept).  Classification uses the `0.85 / 0.6` expression,
criticality the shared `0.85 / 0.7` expression. -/
def cacheAnalyzeIssue (similarRes : Except String (List CMSimilarIssue))
    (title : String) (body : String) : CacheAnalysisResult :=
  let issueType := (categorize title body).primary_category
  let similar := match similarRes with | .error _ => [] | .ok l => l
  let maxSim := match similarRes with | .error _ => 0 | .ok l => pyMaxSimilarity l
  { category := issueType
  , ai_analysis :=
      { type := issueType, criticality := criticalityOf maxSim
      , confidence := pyRound2 maxSim, similar_issues := similar }
  , duplicate_info :=
      { classification := cacheClassificationOf maxSim
      , similarity := pyRound3 maxSim, similar_issues := similar } }

/-! ## `ChromaStore` (`be/app/vector/chroma_client.py`)

The store is modelled as an association list of collections keyed by
collection name, each collection an association list of entries keyed by
document id (ChromaDB collection semantics: `get_or_create_collection`
creates an empty collection on first use; `upsert` replaces the entry
with the given id or appends a new one; `query` returns the nearest
entries by the collection's distance metric — the default `l2` space —
in ascending distance order, at most `n_results` of them). -/

/-- Models `str.lower()` (ASCII lowercasing, character by character). -/
def pyLower (s : String) : String := String.mk (s.data.map Char.toLower)

/-- Models `str.replace(old, new)` for a single-character pattern and
replacement — the only form the collection-name sanitizers use. -/
def replaceChar (old new : Char) (s : String) : String :=
  String.mk (s.data.map fun x => if x = old then new else x)

/-- The method `ChromaStore._get_collection_name(owner, repo)`:
`f"repo_{owner}_{repo}".lower()` with `/`, `-` and `.` replaced
by `_`. -/
def getCollectionName (owner repo : String) : String :=
  let name := pyLower ("repo_" ++ owner ++ "_" ++ repo)
  replaceChar '.' '_' (replaceChar '-' '_' (replaceChar '/' '_' name))

/-- Models `dict.get(key, "")` on a string-keyed metadata dict. -/
def metaGet (md : List (String × String)) (k : String) : String :=
  ((md.find? fun p => decide (p.1 = k)).map Prod.snd).getD ""

/-- A stored vector-index entry: embedding, metadata and the document
string built from the metadata. -/
structure StoreEntry where
  embedding : List ℚ
  metadata : List (String × String)
  document : String
deriving DecidableEq, Repr

/-- A ChromaDB collection: entries keyed by document id, in insertion
order. -/
abbrev Collection := List (String × StoreEntry)

/-- The ChromaDB client state: collections keyed by name. -/
abbrev StoreState := List (String × Collection)

/-- Look up a collection by name. -/
def findCollection (st : StoreState) (name : String) : Option Collection :=
  (st.find? fun p => decide (p.1 = name)).map Prod.snd

/-- Models `client.get_or_create_collection(name)`: create an empty collection
under `name` unless one exists. -/
def getOrCreateCollection (st : StoreState) (name : String) : StoreState :=
  if (st.find? fun p => decide (p.1 = name)).isSome then st
  else st ++ [(name, [])]

/-- Models `collection.upsert` for a single id: replace the entry with this id,
or append a new one. -/
def upsertEntry (c : Collection) (id : String) (e : StoreEntry) : Collection :=
  if (c.find? fun p => decide (p.1 = id)).isSome then
    c.map fun p => if p.1 = id then (p.1, e) else p
  else c ++ [(id, e)]

/-- Apply an update to the collection stored under `name`, leaving every
other collection unchanged. -/
def collUpdate (name : String) (g : Collection → Collection) :
    StoreState → StoreState :=
  List.map fun p => if p.1 = name then (p.1, g p.2) else p

/-- The method `ChromaStore.add_issue(owner, repo, issue_id, embedding, metadata)`:
upsert into the repository's own collection, with the document built as
`f"{metadata.get('title','')}\n{metadata.get('body','')}"`. -/
def chromaAddIssue (st : StoreState) (owner repo issueId : String)
    (embedding : List ℚ) (metadata : List (String × String)) : StoreState :=
  collUpdate (getCollectionName owner repo)
    (fun c => upsertEntry c issueId
      { embedding := embedding, metadata := metadata
      , document := metaGet metadata "title" ++ "\n" ++ metaGet metadata "body" })
    (getOrCreateCollection st (getCollectionName owner repo))

/-- The method `ChromaStore.count(owner, repo)`: size of the repository's own
collection (`0` for a not-yet-created collection, which
`get_or_create_collection` would create empty). -/
def chromaCount (st : StoreState) (owner repo : String) : ℕ :=
  ((findCollection st (getCollectionName owner repo)).getD []).length

/-- Squared L2 distance — the default ChromaDB collection metric, used
to order query results (ascending). -/
def l2sq (a b : List ℚ) : ℚ :=
  (List.zipWith (fun x y => (x - y) * (x - y)) a b).sum

/-- The method `ChromaStore.query(owner, repo, embedding, limit)`: the nearest at
most `limit` entries of the repository's own collection, ascending by
distance to `embedding` (stable order on ties). -/
def chromaQuery (st : StoreState) (owner repo : String) (embedding : List ℚ)
    (limit : ℕ) : List (String × StoreEntry) :=
  let c := (findCollection st (getCollectionName owner repo)).getD []
  (sortBy (fun p q =>
    decide (l2sq p.2.embedding embedding ≤ l2sq q.2.embedding embedding)) c).take limit

/-- The method `ChromaStore.issue_exists(owner, repo, issue_id)`. -/
def chromaIssueExists (st : StoreState) (owner repo issueId : String) : Bool :=
  ((findCollection st (getCollectionName owner repo)).getD []).any fun p =>
    decide (p.1 = issueId)

/-! ## `ChromaManager` (`be/app/core/chroma_manager.py`)

`ChromaManager.get_collection` and the `collection.query` call are
modelled by an oracle record: `getOrCreate` maps a sanitized collection
name to a collection handle or an exception (ChromaDB name validation,
storage failures), and `query` maps a handle, query embedding and
`n_results` to the flattened result rows or an exception.
`find_similar_issues` obtains the collection *outside* its
`try`/`except` and runs the query and result parsing inside it. -/

/-- One position of a `collection.query` result in `ChromaManager`:
`ids[0][i]`, `metadatas[0][i]["issue_number"]`,
`metadatas[0][i]["title"]`, `distances[0][i]`. -/
structure CMRow where
  id : String
  issue_number : ℤ
  title : String
  distance : ℚ
deriving DecidableEq, Repr

/-- Oracle for the ChromaDB client used by `ChromaManager`. -/
structure CMClient where
  getOrCreate : String → Except String String
  query : String → List ℚ → ℕ → Except String (List CMRow)

/-- The sanitization in `ChromaManager.get_collection`:
`repo_name.replace("/", "_").replace("-", "_").lower()`. -/
def cmSanitize (repoName : String) : String :=
  pyLower (replaceChar '-' '_' (replaceChar '/' '_' repoName))

/-- The method `ChromaManager.get_collection(repo_name)`: sanitize the name and
call `get_or_create_collection`; its `except` clause logs and
re-raises, so the outcome is the oracle's outcome. -/
def cmGetCollection (cl : CMClient) (repoName : String) : Except String String :=
  cl.getOrCreate (cmSanitize repoName)

/-- Python truthiness of the `Optional[int]` value `exclude_issue`:
falsy for `None` and for `0`. -/
def pyTruthyInt : Option ℤ → Bool
  | none => false
  | some n => decide (n ≠ 0)

/-- The expression `n_results = top_k + 1 if exclude_issue else top_k`. -/
def cmNResults (topK : ℕ) (excludeIssue : Option ℤ) : ℕ :=
  if pyTruthyInt excludeIssue then topK + 1 else topK

/-- The result-parsing loop of `find_similar_issues`: skip the excluded
issue number (when `exclude_issue` is truthy), convert each distance to
a similarity `1 / (1 + distance)` rounded to three decimals, and stop
once `top_k` entries have been collected (`len` is the count collected
so far; the length check runs after each append). -/
def cmParseRows (excludeIssue : Option ℤ) (topK : ℕ) :
    List CMRow → ℕ → List CMSimilarIssue
  | [], _ => []
  | r :: rest, len =>
    if pyTruthyInt excludeIssue ∧ r.issue_number = excludeIssue.getD 0 then
      cmParseRows excludeIssue topK rest len
    else
      let entry : CMSimilarIssue :=
        ⟨r.issue_number, r.title, pyRound3 (1 / (1 + r.distance))⟩
      if topK ≤ len + 1 then [entry]
      else entry :: cmParseRows excludeIssue topK rest (len + 1)

/-- The method `ChromaManager.find_similar_issues(repo_name, embedding, top_k,
exclude_issue)`: get the collection (outside the `try`), then inside the
`try` query it and parse the rows; any exception raised by the query (or
the parse) yields the empty list, while a `get_collection` exception
propagates. -/
def cmFindSimilarIssues (cl : CMClient) (repoName : String)
    (embedding : List ℚ) (topK : ℕ) (excludeIssue : Option ℤ) :
    Except String (List CMSimilarIssue) :=
  match cmGetCollection cl repoName with
  | .error e => .error e
  | .ok collection =>
    match cl.query collection embedding (cmNResults topK excludeIssue) with
    | .error _ => .ok []
    | .ok rows =>
      if rows = [] then .ok []
      else .ok (cmParseRows excludeIssue topK rows 0)

/-! ## `CacheService.sync_repository` (`be/app/services/cache_service.py`)

The single-flight guard: the module-level `_syncing_repos` set is
modelled as a `Finset String` of repository keys.  The body of the
guarded `try` (GitHub fetch, per-issue embedding/analysis/Mongo writes,
sync-state update) is abstracted as a `SyncRun`: the list of external
effects it performs and its outcome (an uncaught exception, or success
with the stored/fetched counters).  The `finally` clause discards the
key in both cases; a body exception propagates to the caller after the
`finally` runs. -/

/-- Abstracted body of one guarded sync run (see the section comment). -/
structure SyncRun where
  effects : List String
  failure : Option String
deriving DecidableEq, Repr

/-- Result value of `sync_repository`: the skip dict
`{"skipped": True, "reason": ...}` or the completion dict
`{"synced": ..., "total_fetched": ...}` (timestamp omitted). -/
inductive SyncResult where
  | skipped (reason : String)
  | completed (synced : ℕ) (totalFetched : ℕ)
deriving DecidableEq, Repr

/-- The key `repo_key = f"{owner}/{repo}"`. -/
def repoKey (owner repo : String) : String := owner ++ "/" ++ repo

/-- The method `CacheService.sync_repository(owner, repo, ...)` as a transition on
the `_syncing_repos` set: if the key is in the set, return the skip
result at once, with no effects and the set unchanged; otherwise add the
key, run the body, and discard the key in the `finally` whether the body
succeeded or raised.  Returns (outcome, final syncing set, effects
performed). -/
def syncRepository (syncing : Finset String) (owner repo : String)
    (run : SyncRun) (stored fetched : ℕ) :
    Except String SyncResult × Finset String × List String :=
  let key := repoKey owner repo
  if key ∈ syncing then
    (Except.ok (SyncResult.skipped "sync already in progress"), syncing, [])
  else
    let afterFinally := (insert key syncing).erase key
    match run.failure with
    | some e => (Except.error e, afterFinally, run.effects)
    | none =>
      (Except.ok (SyncResult.completed stored fetched), afterFinally, run.effects)

/-! ## General lemmas -/

theorem insertBy_perm {α : Type} (le : α → α → Bool) (x : α) :
    ∀ l : List α, (insertBy le x l).Perm (x :: l) := by
  intro l
  induction l with
  | nil => simp [insertBy]
  | cons y ys ih =>
    simp only [insertBy]
    split
    · exact List.Perm.refl _
    · exact (List.Perm.cons y ih).trans (List.Perm.swap x y ys)

theorem sortBy_perm {α : Type} (le : α → α → Bool) :
    ∀ l : List α, (sortBy le l).Perm l := by
  intro l
  induction l with
  | nil => simp [sortBy]
  | cons x xs ih =>
    exact (insertBy_perm le x (sortBy le xs)).trans (List.Perm.cons x ih)

theorem mem_sortBy {α : Type} {le : α → α → Bool} {x : α} {l : List α}
    (h : x ∈ sortBy le l) : x ∈ l :=
  (sortBy_perm le l).mem_iff.mp h

/-- Folding a step function that ignores the elements a filter drops is
unchanged by the filter. -/
theorem foldl_filter_skip {α β : Type} (f : β → α → β) (p : α → Bool)
    (hf : ∀ b a, p a = false → f b a = b) :
    ∀ (l : List α) (b : β), (l.filter p).foldl f b = l.foldl f b := by
  intro l
  induction l with
  | nil => intro b; rfl
  | cons a l ih =>
    intro b
    by_cases hp : p a
    · simp [List.filter_cons, hp, ih]
    · have hp' : p a = false := by simpa using hp
      simp [List.filter_cons, hp', hf b a hp', ih]

/-- Filtering by a predicate on which the partial map is already `none`
leaves a `filterMap` unchanged. -/
theorem filterMap_filter_skip {α β : Type} (g : α → Option β) (p : α → Bool)
    (hg : ∀ a, p a = false → g a = none) :
    ∀ l : List α, (l.filter p).filterMap g = l.filterMap g := by
  intro l
  induction l with
  | nil => rfl
  | cons a l ih =>
    by_cases hp : p a
    · simp [List.filter_cons, hp, List.filterMap_cons, ih]
    · have hp' : p a = false := by simpa using hp
      simp [List.filter_cons, hp', List.filterMap_cons, hg a hp', ih]

theorem pyRound2_nonneg {x : ℚ} (hx : 0 ≤ x) : 0 ≤ pyRound2 x := by
  unfold pyRound2
  rw [ratFloor_eq_intFloor]
  have h1 : (0 : ℤ) ≤ ⌊x * 100 + 1/2⌋ := by
    apply Int.floor_nonneg.mpr
    nlinarith
  positivity
  
theorem pyRound2_le_one {x : ℚ} (hx : x ≤ 1) : pyRound2 x ≤ 1 := by
  unfold pyRound2
  rw [ratFloor_eq_intFloor]
  have h1 : ⌊x * 100 + 1/2⌋ ≤ 100 := by
    have : (⌊x * 100 + 1/2⌋ : ℚ) ≤ x * 100 + 1/2 := Int.floor_le _
    have hle : x * 100 + 1/2 ≤ (100 : ℚ) + 1/2 := by linarith
    have := Int.floor_mono (α := ℚ) (a := x * 100 + 1/2) (b := 100 + 1/2) hle
    have h100 : ⌊(100 : ℚ) + 1/2⌋ = 100 := by
      rw [show ((100 : ℚ) + 1/2) = (201/2 : ℚ) by norm_num, ← ratFloor_eq_intFloor]
      decide
    omega
  have h1q : (⌊x * 100 + 1/2⌋ : ℚ) ≤ 100 := by exact_mod_cast h1
  linarith

theorem pyRound2_pos {x : ℚ} (hx : 8/10 ≤ x) : 0 < pyRound2 x := by
  unfold pyRound2
  rw [ratFloor_eq_intFloor]
  have h1 : (80 : ℤ) ≤ ⌊x * 100 + 1/2⌋ := by
    have hle : (80 : ℚ) + 1/2 ≤ x * 100 + 1/2 := by linarith
    have := Int.floor_mono (α := ℚ) (a := 80 + 1/2) (b := x * 100 + 1/2) hle
    have h80 : ⌊(80 : ℚ) + 1/2⌋ = 80 := by
      rw [show ((80 : ℚ) + 1/2) = (161/2 : ℚ) by norm_num, ← ratFloor_eq_intFloor]
      decide
    omega
  have h1q : (80 : ℚ) ≤ (⌊x * 100 + 1/2⌋ : ℚ) := by exact_mod_cast h1
  linarith

/-! ## Claim theorems -/

/-- C5: at most one sync run per repository key is in flight.  A
`sync_repository` call whose key is already in the syncing set performs
no fetch and no writes and returns the no-op "skipped" result with the
set unchanged; a call that does start (key not in the set) always ends
with its key out of the set, whether the body succeeded or raised. -/
theorem sync_single_flight (S : Finset String) (owner repo : String)
    (run : SyncRun) (stored fetched : ℕ) :
    (repoKey owner repo ∈ S →
      syncRepository S owner repo run stored fetched =
        (Except.ok (SyncResult.skipped "sync already in progress"), S, [])) ∧
    (repoKey owner repo ∉ S →
      repoKey owner repo ∉ (syncRepository S owner repo run stored fetched).2.1) := by
  constructor
  · intro h
    unfold syncRepository
    rw [if_pos h]
  · intro h
    unfold syncRepository
    rw [if_neg h]
    cases run.failure <;> exact Finset.not_mem_erase _ _

theorem sync_single_flight_witness :
    (repoKey "o" "r" ∈ ({"o/r"} : Finset String) ∧
      syncRepository {"o/r"} "o" "r" ⟨["fetch"], none⟩ 3 4 =
        (Except.ok (SyncResult.skipped "sync already in progress"), {"o/r"}, [])) ∧
    (repoKey "a" "b" ∉ (∅ : Finset String) ∧
      repoKey "a" "b" ∉
        (syncRepository ∅ "a" "b" ⟨["fetch", "write"], some "boom"⟩ 0 0).2.1) :=
  ⟨⟨by decide,
    (sync_single_flight {"o/r"} "o" "r" ⟨["fetch"], none⟩ 3 4).1 (by decide)⟩,
   ⟨by decide,
    (sync_single_flight ∅ "a" "b" ⟨["fetch", "write"], some "boom"⟩ 0 0).2 (by decide)⟩⟩

/-- C6: with at most one entry in the repository's collection (nothing
to compare against), `analyze_single_issue` returns confidence `0.0`,
classification `"new"` and no similar issues — a defined early return,
not an error (the model is a total function; this branch precedes every
similarity computation). -/
theorem analyze_singleton_collection (env : AnalyzeEnv) (title body : String)
    (h : env.count ≤ 1) :
    (analyzeSingleIssue env title body).ai_analysis.confidence = 0 ∧
    (analyzeSingleIssue env title body).duplicate_info.classification = "new" ∧
    (analyzeSingleIssue env title body).ai_analysis.similar_issues = [] ∧
    (analyzeSingleIssue env title body).ai_analysis.criticality = "low" := by
  unfold analyzeSingleIssue
  rw [if_pos h]
  exact ⟨rfl, rfl, rfl, rfl⟩

theorem analyze_singleton_collection_witness :
    (AnalyzeEnv.count ⟨1, [1], [], fun _ _ => 0⟩ ≤ 1) ∧
    ((analyzeSingleIssue ⟨1, [1], [], fun _ _ => 0⟩ "only issue" "").ai_analysis.confidence = 0 ∧
     (analyzeSingleIssue ⟨1, [1], [], fun _ _ => 0⟩ "only issue" "").duplicate_info.classification = "new" ∧
     (analyzeSingleIssue ⟨1, [1], [], fun _ _ => 0⟩ "only issue" "").ai_analysis.similar_issues = [] ∧
     (analyzeSingleIssue ⟨1, [1], [], fun _ _ => 0⟩ "only issue" "").ai_analysis.criticality = "low") :=
  ⟨by decide,
   analyze_singleton_collection ⟨1, [1], [], fun _ _ => 0⟩ "only issue" "" (by decide)⟩

/-- C8: `cosine` is total over all pairs of rational vectors; when
either argument has zero norm (equivalently, zero sum of squares, as for
the zero embedding of empty text) it returns exactly `0`, and the
division expression is the value only when both norms are nonzero. -/
theorem cosine_total_guard (a b : List ℚ) :
    ((normSq a = 0 ∨ normSq b = 0) → cosine a b = 0) ∧
    (normSq a ≠ 0 → normSq b ≠ 0 →
      cosine a b =
        (dotQ a b : ℝ) / (Real.sqrt (normSq a) * Real.sqrt (normSq b))) := by
  constructor
  · intro h
    unfold cosine
    rw [if_pos h]
  · intro ha hb
    unfold cosine
    rw [if_neg (by tauto)]

theorem cosine_total_guard_witness :
    (normSq [0, 0] = 0 ∨ normSq [3, 4] = 0) ∧ cosine [0, 0] [3, 4] = 0 :=
  ⟨Or.inl (by decide), (cosine_total_guard [0, 0] [3, 4]).1 (Or.inl (by decide))⟩

/-- C1 (counterexample): an issue analyzed by
`CacheService._analyze_issue` with `max_similarity = 0.65 < 0.70` gets
classification `"related"` — not `"new"` as the claimed threshold table
requires — paired with criticality `"low"`. -/
theorem cache_related_at_065 :
    (cacheAnalyzeIssue (Except.ok [⟨5, "other title", 65/100⟩]) "a" "").duplicate_info.similarity = 65/100 ∧
    (65 : ℚ)/100 < 7/10 ∧
    (cacheAnalyzeIssue (Except.ok [⟨5, "other title", 65/100⟩]) "a" "").duplicate_info.classification = "related" ∧
    (cacheAnalyzeIssue (Except.ok [⟨5, "other title", 65/100⟩]) "a" "").ai_analysis.criticality = "low" := by
  decide

/-- C1 (amended): the `0.85 / 0.70` table holds exactly for the
classification, criticality and reuse-type expressions of
`analyze_single_issue`, and for the criticality expression of
`CacheService._analyze_issue`; the classification of
`CacheService._analyze_issue`, however, switches to `"related"` already
at `0.60`, so `max_similarity ∈ [0.60, 0.70)` there yields
(`"related"`, `"low"`). -/
theorem similarity_threshold_tables (m : ℚ) :
    (85/100 ≤ m → classificationOf m = "duplicate" ∧ criticalityOf m = "high"
      ∧ cacheClassificationOf m = "duplicate") ∧
    (7/10 ≤ m → m < 85/100 →
      classificationOf m = "related" ∧ criticalityOf m = "medium"
      ∧ cacheClassificationOf m = "related") ∧
    (m < 7/10 → classificationOf m = "new" ∧ criticalityOf m = "low") ∧
    (6/10 ≤ m → m < 85/100 → cacheClassificationOf m = "related") ∧
    (m < 6/10 → cacheClassificationOf m = "new") := by
  unfold classificationOf criticalityOf cacheClassificationOf
  refine ⟨fun h1 => ?_, fun h1 h2 => ?_, fun h1 => ?_, fun h1 h2 => ?_, fun h1 => ?_⟩ <;>
    split_ifs <;> first | (exact ⟨rfl, rfl, rfl⟩) | (exact ⟨rfl, rfl⟩) | rfl | linarith

theorem similarity_threshold_tables_witness :
    ((7:ℚ)/10 ≤ 75/100 ∧ (75:ℚ)/100 < 85/100 ∧
      classificationOf (75/100) = "related" ∧ criticalityOf (75/100) = "medium"
      ∧ cacheClassificationOf (75/100) = "related") ∧
    ((65:ℚ)/100 < 7/10 ∧ (6:ℚ)/10 ≤ 65/100 ∧
      classificationOf (65/100) = "new" ∧
      cacheClassificationOf (65/100) = "related") :=
  ⟨⟨by norm_num, by norm_num,
    ((similarity_threshold_tables (75/100)).2.1 (by norm_num) (by norm_num)).1,
    ((similarity_threshold_tables (75/100)).2.1 (by norm_num) (by norm_num)).2.1,
    ((similarity_threshold_tables (75/100)).2.1 (by norm_num) (by norm_num)).2.2⟩,
   ⟨by norm_num, by norm_num,
    ((similarity_threshold_tables (65/100)).2.2.1 (by norm_num)).1,
    (similarity_threshold_tables (65/100)).2.2.2.1 (by norm_num) (by norm_num)⟩⟩

/-! ## Association-list lemmas for the store model -/

/-- The per-collection update of `chromaAddIssue` preserves keys, so it
commutes with lookup by any key. -/
theorem find?_map_collUpdate {α : Type} (name k : String) (g : α → α)
    (l : List (String × α)) :
    (l.map fun p => if p.1 = name then (p.1, g p.2) else p).find?
        (fun p => decide (p.1 = k)) =
      (l.find? fun p => decide (p.1 = k)).map
        fun p => if p.1 = name then (p.1, g p.2) else p := by
  rw [List.find?_map]
  have hp :
      ((fun p : String × α => decide (p.1 = k)) ∘
        fun p => if p.1 = name then (p.1, g p.2) else p) =
      fun p : String × α => decide (p.1 = k) := by
    funext q
    by_cases hn : q.1 = name <;> simp [hn]
  rw [hp]

theorem find?_key_eq {α : Type} {l : List (String × α)} {k : String}
    {pr : String × α} (h : l.find? (fun q => decide (q.1 = k)) = some pr) :
    pr.1 = k := by
  have h2 := List.find?_some h
  exact of_decide_eq_true h2

theorem upsertEntry_of_found {c : Collection} {id : String}
    {pr : String × StoreEntry}
    (h : c.find? (fun p => decide (p.1 = id)) = some pr) (e : StoreEntry) :
    upsertEntry c id e = c.map fun q => if q.1 = id then (q.1, e) else q := by
  unfold upsertEntry
  rw [h]
  rfl

theorem upsertEntry_of_not_found {c : Collection} {id : String}
    (h : c.find? (fun p => decide (p.1 = id)) = none) (e : StoreEntry) :
    upsertEntry c id e = c ++ [(id, e)] := by
  unfold upsertEntry
  rw [h]
  rfl

theorem getOrCreate_of_found {st : StoreState} {name : String}
    {pr : String × Collection}
    (h : st.find? (fun p => decide (p.1 = name)) = some pr) :
    getOrCreateCollection st name = st := by
  unfold getOrCreateCollection
  rw [h]
  rfl

theorem getOrCreate_of_not_found {st : StoreState} {name : String}
    (h : st.find? (fun p => decide (p.1 = name)) = none) :
    getOrCreateCollection st name = st ++ [(name, [])] := by
  unfold getOrCreateCollection
  rw [h]
  rfl

/-- Creating collection `name` does not change lookup of a different
key. -/
theorem find?_getOrCreate_ne {st : StoreState} {name k : String}
    (h : k ≠ name) :
    (getOrCreateCollection st name).find? (fun p => decide (p.1 = k)) =
      st.find? fun p => decide (p.1 = k) := by
  cases hfind : st.find? fun p => decide (p.1 = name) with
  | some pr => rw [getOrCreate_of_found hfind]
  | none =>
    rw [getOrCreate_of_not_found hfind, List.find?_append]
    have hone : (([(name, ([] : Collection))]).find? fun p => decide (p.1 = k)) = none := by
      simp [Ne.symm h]
    rw [hone]
    cases st.find? fun p => decide (p.1 = k) <;> rfl

/-- After `get_or_create_collection`, the collection exists. -/
theorem find?_getOrCreate_self (st : StoreState) (name : String) :
    ∃ c : Collection,
      (getOrCreateCollection st name).find? (fun p => decide (p.1 = name)) =
        some (name, c) := by
  cases hfind : st.find? fun p => decide (p.1 = name) with
  | some pr =>
    obtain ⟨k, c⟩ := pr
    have hk : k = name := find?_key_eq hfind
    subst hk
    exact ⟨c, by rw [getOrCreate_of_found hfind, hfind]⟩
  | none =>
    refine ⟨[], ?_⟩
    rw [getOrCreate_of_not_found hfind, List.find?_append, hfind]
    simp

/-- A value-replacing map at a key that is absent is the identity. -/
theorem map_replace_of_not_found {α : Type} {c : List (String × α)}
    {id : String} (h : (c.find? fun p => decide (p.1 = id)) = none) (e : α) :
    (c.map fun p => if p.1 = id then (p.1, e) else p) = c := by
  rw [List.find?_eq_none] at h
  induction c with
  | nil => rfl
  | cons p l ih =>
    have hp : ¬ p.1 = id := by
      have := h p (List.mem_cons_self p l)
      simpa using this
    simp only [List.map_cons, if_neg hp]
    rw [ih fun x hx => h x (List.mem_cons_of_mem p hx)]

/-- An `upsert` at an id followed by `upsert` at the same id replaces,
never duplicates: it equals the second `upsert` alone. -/
theorem upsertEntry_upsertEntry (c : Collection) (id : String)
    (e₁ e₂ : StoreEntry) :
    upsertEntry (upsertEntry c id e₁) id e₂ = upsertEntry c id e₂ := by
  cases hfind : c.find? fun p => decide (p.1 = id) with
  | none =>
    rw [upsertEntry_of_not_found hfind e₁, upsertEntry_of_not_found hfind e₂]
    have hsome : ((c ++ [(id, e₁)]).find? fun p => decide (p.1 = id)) =
        some (id, e₁) := by
      rw [List.find?_append, hfind]
      simp
    rw [upsertEntry_of_found hsome e₂, List.map_append,
      map_replace_of_not_found hfind]
    simp
  | some pr =>
    rw [upsertEntry_of_found hfind e₁, upsertEntry_of_found hfind e₂]
    have hmapped :
        ((c.map fun q => if q.1 = id then (q.1, e₁) else q).find?
            fun q => decide (q.1 = id)) =
          some (if pr.1 = id then (pr.1, e₁) else pr) := by
      rw [find?_map_collUpdate id id (fun _ => e₁) c, hfind]
      rfl
    rw [upsertEntry_of_found hmapped e₂, List.map_map]
    congr 1
    funext q
    by_cases hq : q.1 = id <;> simp [hq]

/-- Lookup by `find?` at the upserted id returns exactly the upserted entry. -/
theorem find?_upsertEntry_self (c : Collection) (id : String) (e : StoreEntry) :
    (upsertEntry c id e).find? (fun p => decide (p.1 = id)) = some (id, e) := by
  cases hfind : c.find? fun p => decide (p.1 = id) with
  | none =>
    rw [upsertEntry_of_not_found hfind e, List.find?_append, hfind]
    simp
  | some pr =>
    rw [upsertEntry_of_found hfind e, find?_map_collUpdate id id (fun _ => e) c,
      hfind]
    have hp : pr.1 = id := find?_key_eq hfind
    simp [hp]

/-- The entry stored under an issue id in a repository's collection
(the metadata a `collection.get(ids=[issue_id])` would report). -/
def storedMetadata (st : StoreState) (owner repo issueId : String) :
    Option (List (String × String)) :=
  (((findCollection st (getCollectionName owner repo)).getD []).find?
      fun p => decide (p.1 = issueId)).map fun p => p.2.metadata

/-- The update `collUpdate` commutes with lookup by any key. -/
theorem find?_collUpdate (name k : String) (g : Collection → Collection)
    (st : StoreState) :
    (collUpdate name g st).find? (fun p => decide (p.1 = k)) =
      (st.find? fun p => decide (p.1 = k)).map
        fun p => if p.1 = name then (p.1, g p.2) else p := by
  unfold collUpdate
  rw [List.find?_map]
  have hp :
      ((fun p : String × Collection => decide (p.1 = k)) ∘
        fun p => if p.1 = name then (p.1, g p.2) else p) =
      fun p : String × Collection => decide (p.1 = k) := by
    funext q
    by_cases hn : q.1 = name <;> simp [hn]
  rw [hp]

theorem findCollection_addIssue_ne {st : StoreState} {oA rA oB rB : String}
    (issueId : String) (emb : List ℚ) (md : List (String × String))
    (h : getCollectionName oA rA ≠ getCollectionName oB rB) :
    findCollection (chromaAddIssue st oA rA issueId emb md)
        (getCollectionName oB rB) =
      findCollection st (getCollectionName oB rB) := by
  unfold chromaAddIssue findCollection
  rw [find?_collUpdate, find?_getOrCreate_ne (Ne.symm h)]
  cases hfind : st.find? fun p => decide (p.1 = getCollectionName oB rB) with
  | none => rfl
  | some pr =>
    have hpr : pr.1 = getCollectionName oB rB := find?_key_eq hfind
    simp only [Option.map_some']
    rw [if_neg (by rw [hpr]; exact Ne.symm h)]

theorem chromaAddIssue_twice (st : StoreState) (o r issueId : String)
    (e₁ e₂ : List ℚ) (m₁ m₂ : List (String × String)) :
    chromaAddIssue (chromaAddIssue st o r issueId e₁ m₁) o r issueId e₂ m₂ =
      chromaAddIssue st o r issueId e₂ m₂ := by
  obtain ⟨c, hc⟩ := find?_getOrCreate_self st (getCollectionName o r)
  unfold chromaAddIssue
  have hfound :
      ((collUpdate (getCollectionName o r)
          (fun cc => upsertEntry cc issueId
            { embedding := e₁, metadata := m₁
            , document := metaGet m₁ "title" ++ "\n" ++ metaGet m₁ "body" })
          (getOrCreateCollection st (getCollectionName o r))).find?
        fun p => decide (p.1 = getCollectionName o r)) =
        some (getCollectionName o r,
          upsertEntry c issueId
            { embedding := e₁, metadata := m₁
            , document := metaGet m₁ "title" ++ "\n" ++ metaGet m₁ "body" }) := by
    rw [find?_collUpdate, hc]
    simp only [Option.map_some', if_true]
  rw [getOrCreate_of_found hfound]
  unfold collUpdate
  rw [List.map_map]
  congr 1
  funext q
  by_cases hq : q.1 = getCollectionName o r
  · simp only [Function.comp_apply, if_pos hq, upsertEntry_upsertEntry]
  · simp only [Function.comp_apply, if_neg hq]

theorem storedMetadata_addIssue (st : StoreState) (o r issueId : String)
    (emb : List ℚ) (md : List (String × String)) :
    storedMetadata (chromaAddIssue st o r issueId emb md) o r issueId =
      some md := by
  obtain ⟨c, hc⟩ := find?_getOrCreate_self st (getCollectionName o r)
  unfold storedMetadata findCollection chromaAddIssue
  rw [find?_collUpdate, hc]
  simp only [Option.map_some', if_true, Option.getD_some]
  rw [find?_upsertEntry_self]
  rfl

/-- C3 (counterexample): the collection-name sanitization collides for
distinct repositories — `("foo-bar", "baz")` and `("foo", "bar-baz")`
map to the same collection — so an embedding upserted under the first
repository is returned by a query scoped to the second. -/
theorem repo_isolation_collision :
    ("foo-bar", "baz") ≠ ("foo", "bar-baz") ∧
    getCollectionName "foo-bar" "baz" = getCollectionName "foo" "bar-baz" ∧
    (chromaQuery (chromaAddIssue [] "foo-bar" "baz" "1" [1] [("title", "t")])
        "foo" "bar-baz" [0] 6).map Prod.fst = ["1"] := by
  decide

/-- C3 (amended): isolation holds exactly up to the sanitized collection
name: whenever two repositories map to different collection names, an
upsert under the first leaves every query scoped to the second
unchanged (queries read only their own collection); distinct
`(owner, repo)` pairs can, however, collide after sanitization. -/
theorem repo_isolation_frame (st : StoreState) (oA rA oB rB issueId : String)
    (emb : List ℚ) (md : List (String × String)) (qe : List ℚ) (k : ℕ)
    (h : getCollectionName oA rA ≠ getCollectionName oB rB) :
    chromaQuery (chromaAddIssue st oA rA issueId emb md) oB rB qe k =
      chromaQuery st oB rB qe k := by
  unfold chromaQuery
  rw [findCollection_addIssue_ne issueId emb md h]

theorem repo_isolation_frame_witness :
    getCollectionName "alpha" "x" ≠ getCollectionName "beta" "y" ∧
    chromaQuery (chromaAddIssue [] "alpha" "x" "7" [1] []) "beta" "y" [1] 3 =
      chromaQuery [] "beta" "y" [1] 3 :=
  ⟨by decide,
   repo_isolation_frame [] "alpha" "x" "beta" "y" "7" [1] [] [1] 3 (by decide)⟩

/-- C4: upsert is idempotent.  Upserting the same issue id twice (with
any embeddings and metadata) leaves the repository count exactly what
the single second upsert produces — the entry is replaced, never
duplicated — and the stored metadata for that id is the last write. -/
theorem upsert_idempotent (st : StoreState) (o r issueId : String)
    (e₁ e₂ : List ℚ) (m₁ m₂ : List (String × String)) :
    chromaCount
        (chromaAddIssue (chromaAddIssue st o r issueId e₁ m₁) o r issueId e₂ m₂)
        o r =
      chromaCount (chromaAddIssue st o r issueId e₂ m₂) o r ∧
    storedMetadata
        (chromaAddIssue (chromaAddIssue st o r issueId e₁ m₁) o r issueId e₂ m₂)
        o r issueId = some m₂ :=
  ⟨congrArg (fun s => chromaCount s o r)
      (chromaAddIssue_twice st o r issueId e₁ e₂ m₁ m₂),
   storedMetadata_addIssue (chromaAddIssue st o r issueId e₁ m₁) o r issueId
      e₂ m₂⟩

/-! ## Self-exclusion and error-handling lemmas -/

theorem mem_similarCandidates_title {sim : List ℚ → List ℚ → ℚ}
    {qe : List ℚ} {title : String} {rows : List QueryRow} {s : SimilarIssue}
    (h : s ∈ similarCandidates sim qe title rows) : s.title ≠ title := by
  unfold similarCandidates at h
  obtain ⟨r, hr, hf⟩ := List.mem_filterMap.mp h
  by_cases ht : r.title = title
  · rw [if_pos ht] at hf
    exact absurd hf (by simp)
  · rw [if_neg ht] at hf
    cases he : r.embedding with
    | none => rw [he] at hf; exact absurd hf (by simp)
    | some e =>
      rw [he] at hf
      dsimp only at hf
      split_ifs at hf with hs
      cases Option.some_injective _ hf
      exact ht

theorem similar_issues_title_ne (env : AnalyzeEnv) (title body : String) :
    ∀ s ∈ (analyzeSingleIssue env title body).ai_analysis.similar_issues,
      s.title ≠ title := by
  intro s hs
  unfold analyzeSingleIssue at hs
  split_ifs at hs with h
  · exact absurd hs (by simp)
  · dsimp only at hs
    exact mem_similarCandidates_title (mem_sortBy (List.mem_of_mem_take hs))

theorem analyzeSingleIssue_filter_self (env : AnalyzeEnv) (title body : String) :
    analyzeSingleIssue
        ⟨env.count, env.embedding,
          env.rows.filter fun r => decide (r.title ≠ title), env.sim⟩
        title body =
      analyzeSingleIssue env title body := by
  have hmax :
      maxSimilarityScan env.sim env.embedding title
          (env.rows.filter fun r => decide (r.title ≠ title)) =
        maxSimilarityScan env.sim env.embedding title env.rows := by
    unfold maxSimilarityScan
    refine foldl_filter_skip _ _ (fun b a ha => ?_) env.rows 0
    have hat : a.title = title := by simpa using ha
    rw [if_pos hat]
  have hcand :
      similarCandidates env.sim env.embedding title
          (env.rows.filter fun r => decide (r.title ≠ title)) =
        similarCandidates env.sim env.embedding title env.rows := by
    unfold similarCandidates
    refine filterMap_filter_skip _ _ (fun a ha => ?_) env.rows
    have hat : a.title = title := by simpa using ha
    rw [if_pos hat]
  unfold analyzeSingleIssue
  dsimp only
  rw [hmax, hcand]

theorem cmParseRows_excludes {e : ℤ} (he : e ≠ 0) (topK : ℕ) :
    ∀ (rows : List CMRow) (len : ℕ) (x : CMSimilarIssue),
      x ∈ cmParseRows (some e) topK rows len → x.number ≠ e := by
  intro rows
  induction rows with
  | nil => intro len x hx; exact absurd hx (by simp [cmParseRows])
  | cons r rest ih =>
    intro len x hx
    unfold cmParseRows at hx
    split_ifs at hx with hskip hlen
    · exact ih len x hx
    · have hnum : r.issue_number ≠ e := by
        intro hn
        exact hskip ⟨by simp [pyTruthyInt, he], by simpa using hn⟩
      have hx' : x = ⟨r.issue_number, r.title, pyRound3 (1 / (1 + r.distance))⟩ := by
        simpa using hx
      rw [hx']
      exact hnum
    · have hnum : r.issue_number ≠ e := by
        intro hn
        exact hskip ⟨by simp [pyTruthyInt, he], by simpa using hn⟩
      rcases List.mem_cons.mp hx with hx' | hx'
      · rw [hx']
        exact hnum
      · exact ih (len + 1) x hx'

theorem cmFindSimilarIssues_ok_excludes (cl : CMClient) (repoName : String)
    (emb : List ℚ) (topK : ℕ) {e : ℤ} (he : e ≠ 0) {l : List CMSimilarIssue}
    (hok : cmFindSimilarIssues cl repoName emb topK (some e) = Except.ok l) :
    ∀ x ∈ l, x.number ≠ e := by
  unfold cmFindSimilarIssues at hok
  cases hget : cmGetCollection cl repoName with
  | error m => rw [hget] at hok; exact absurd hok (by simp)
  | ok c =>
    rw [hget] at hok
    dsimp only at hok
    cases hq : cl.query c emb (cmNResults topK (some e)) with
    | error m =>
      rw [hq] at hok
      have : l = [] := by simpa using hok.symm
      rw [this]
      intro x hx
      exact absurd hx (by simp)
    | ok rows =>
      rw [hq] at hok
      dsimp only at hok
      split_ifs at hok with hrows
      · have : l = [] := by simpa using hok.symm
        rw [this]
        intro x hx
        exact absurd hx (by simp)
      · have hl : l = cmParseRows (some e) topK rows 0 := by simpa using hok.symm
        rw [hl]
        intro x hx
        exact cmParseRows_excludes he topK rows 0 x hx

/-- C2: self-exclusion.  Dropping every query row whose stored title
equals the query title changes nothing in the `analyze_single_issue`
result (title-equal neighbors are excluded from both the
`max_similarity` computation and the `similar_issues` list); every
returned similar issue has a title different from the query's; and, in
addition, `ChromaManager.find_similar_issues` never returns the issue
number it is asked to exclude (for a nonzero exclusion number, the only
kind a GitHub issue can have). -/
theorem analyze_self_exclusion (env : AnalyzeEnv) (title body : String)
    (cl : CMClient) (repoName : String) (emb : List ℚ) (topK : ℕ) (e : ℤ)
    (l : List CMSimilarIssue)
    (hok : cmFindSimilarIssues cl repoName emb topK (some e) = Except.ok l)
    (he : e ≠ 0) :
    (analyzeSingleIssue
        ⟨env.count, env.embedding,
          env.rows.filter fun r => decide (r.title ≠ title), env.sim⟩
        title body =
      analyzeSingleIssue env title body) ∧
    (∀ s ∈ (analyzeSingleIssue env title body).ai_analysis.similar_issues,
      s.title ≠ title) ∧
    (∀ x ∈ l, x.number ≠ e) :=
  ⟨analyzeSingleIssue_filter_self env title body,
   similar_issues_title_ne env title body,
   cmFindSimilarIssues_ok_excludes cl repoName emb topK he hok⟩

theorem analyze_self_exclusion_witness :
    (cmFindSimilarIssues ⟨fun n => Except.ok n, fun _ _ _ =>
        Except.ok [⟨"a", 7, "self", 0⟩, ⟨"b", 8, "other", 1⟩]⟩ "o/r" [1] 3 (some 7) =
      Except.ok [⟨8, "other", pyRound3 (1/2)⟩]) ∧
    ((7 : ℤ) ≠ 0) ∧
    (analyzeSingleIssue
        ⟨2, [1], List.filter (fun r => decide (r.title ≠ "t"))
            [⟨"1", some [1], "t", 1⟩, ⟨"2", some [1], "u", 2⟩], fun _ _ => 1⟩
        "t" "" =
      analyzeSingleIssue
        ⟨2, [1], [⟨"1", some [1], "t", 1⟩, ⟨"2", some [1], "u", 2⟩],
          fun _ _ => 1⟩ "t" "") ∧
    (∀ s ∈ (analyzeSingleIssue
        ⟨2, [1], [⟨"1", some [1], "t", 1⟩, ⟨"2", some [1], "u", 2⟩],
          fun _ _ => 1⟩ "t" "").ai_analysis.similar_issues,
      s.title ≠ "t") ∧
    (∀ x ∈ [(⟨8, "other", pyRound3 (1/2)⟩ : CMSimilarIssue)], x.number ≠ 7) := by
  refine ⟨rfl, by decide, ?_, ?_, ?_⟩
  · exact (analyze_self_exclusion
      ⟨2, [1], [⟨"1", some [1], "t", 1⟩, ⟨"2", some [1], "u", 2⟩], fun _ _ => 1⟩
      "t" "" ⟨fun n => Except.ok n, fun _ _ _ =>
        Except.ok [⟨"a", 7, "self", 0⟩, ⟨"b", 8, "other", 1⟩]⟩ "o/r" [1] 3 7
      [⟨8, "other", pyRound3 (1/2)⟩] rfl (by decide)).1
  · exact (analyze_self_exclusion
      ⟨2, [1], [⟨"1", some [1], "t", 1⟩, ⟨"2", some [1], "u", 2⟩], fun _ _ => 1⟩
      "t" "" ⟨fun n => Except.ok n, fun _ _ _ =>
        Except.ok [⟨"a", 7, "self", 0⟩, ⟨"b", 8, "other", 1⟩]⟩ "o/r" [1] 3 7
      [⟨8, "other", pyRound3 (1/2)⟩] rfl (by decide)).2.1
  · exact (analyze_self_exclusion
      ⟨2, [1], [⟨"1", some [1], "t", 1⟩, ⟨"2", some [1], "u", 2⟩], fun _ _ => 1⟩
      "t" "" ⟨fun n => Except.ok n, fun _ _ _ =>
        Except.ok [⟨"a", 7, "self", 0⟩, ⟨"b", 8, "other", 1⟩]⟩ "o/r" [1] 3 7
      [⟨8, "other", pyRound3 (1/2)⟩] rfl (by decide)).2.2

/-- C9 (counterexample): when obtaining the collection itself fails —
`get_collection` is called before the `try` block — the exception
propagates out of `find_similar_issues` instead of yielding `[]`. -/
theorem find_similar_propagates_get_error :
    cmFindSimilarIssues
        ⟨fun _ => Except.error "chroma unavailable", fun _ _ _ => Except.ok []⟩
        "owner/repo" [1] 3 none =
      Except.error "chroma unavailable" := rfl

/-- C9 (amended): once the collection has been obtained, any failure of
the underlying collection query makes `find_similar_issues` return the
empty list rather than raising; only a failure to obtain the collection
itself propagates. -/
theorem find_similar_swallows_query_errors (cl : CMClient) (repoName : String)
    (emb : List ℚ) (topK : ℕ) (excl : Option ℤ) (c msg : String)
    (hget : cl.getOrCreate (cmSanitize repoName) = Except.ok c)
    (hq : cl.query c emb (cmNResults topK excl) = Except.error msg) :
    cmFindSimilarIssues cl repoName emb topK excl = Except.ok [] := by
  unfold cmFindSimilarIssues cmGetCollection
  rw [hget]
  dsimp only
  rw [hq]

theorem find_similar_swallows_query_errors_witness :
    (CMClient.getOrCreate
        ⟨fun n => Except.ok n, fun _ _ _ => Except.error "query failed"⟩
        (cmSanitize "o/r") = Except.ok (cmSanitize "o/r")) ∧
    (CMClient.query
        ⟨fun n => Except.ok n, fun _ _ _ => Except.error "query failed"⟩
        (cmSanitize "o/r") [1] (cmNResults 3 none) = Except.error "query failed") ∧
    cmFindSimilarIssues
        ⟨fun n => Except.ok n, fun _ _ _ => Except.error "query failed"⟩
        "o/r" [1] 3 none = Except.ok [] :=
  ⟨rfl, rfl,
   find_similar_swallows_query_errors
    ⟨fun n => Except.ok n, fun _ _ _ => Except.error "query failed"⟩
    "o/r" [1] 3 none (cmSanitize "o/r") "query failed" rfl rfl⟩

/-! ## Categorizer invariants -/

/-- Characterization of `categorize` when at least one category matched
(the sorted score list is nonempty). -/
theorem categorize_eq_of_sort {title body pc : String} {ps : ℚ}
    {tl : List (String × ℚ)}
    (hsort : sortBy (fun a b => decide (b.2 ≤ a.2))
        (categoryScores (lowerWords (title ++ " " ++ body))) = (pc, ps) :: tl) :
    categorize title body =
      { primary_category := pc
      , categories :=
          (((pc, ps) :: tl).filter fun x => decide (ps * (3/10) ≤ x.2)).map
            Prod.fst
      , confidence :=
          pyRound2 (min (ps /
            (((categoryScores (lowerWords (title ++ " " ++ body))).map
              Prod.snd).sum + 1)) 1)
      , scores :=
          (categoryScores (lowerWords (title ++ " " ++ body))).map fun x =>
            (x.1, pyRound2 x.2) } := by
  unfold categorize
  dsimp only
  rw [hsort]

/-- Characterization of `categorize` in the no-match fallback branch. -/
theorem categorize_eq_of_sort_nil {title body : String}
    (hsort : sortBy (fun a b => decide (b.2 ≤ a.2))
        (categoryScores (lowerWords (title ++ " " ++ body))) = []) :
    categorize title body =
      { primary_category := "general", categories := ["general"]
      , confidence := 1/2, scores := [] } := by
  unfold categorize
  dsimp only
  rw [hsort]

theorem rawConfidence_eq_of_sort {title body pc : String} {ps : ℚ}
    {tl : List (String × ℚ)}
    (hsort : sortBy (fun a b => decide (b.2 ≤ a.2))
        (categoryScores (lowerWords (title ++ " " ++ body))) = (pc, ps) :: tl) :
    rawConfidence title body =
      min (ps /
        (((categoryScores (lowerWords (title ++ " " ++ body))).map
          Prod.snd).sum + 1)) 1 := by
  unfold rawConfidence
  dsimp only
  rw [hsort]

/-- Every entry of the score map comes from a pattern with a positive
match count; its score is (count × weight). -/
theorem mem_categoryScores {toks : List String} {pr : String × ℚ}
    (h : pr ∈ categoryScores toks) :
    ∃ p ∈ categoryPatterns,
      pr = (p.name, (findallCount (p.keywords.map wordsOf) toks : ℚ) * p.weight) ∧
      0 < (findallCount (p.keywords.map wordsOf) toks : ℚ) * p.weight := by
  unfold categoryScores at h
  obtain ⟨p, hp, hf⟩ := List.mem_filterMap.mp h
  dsimp only at hf
  by_cases hpos :
      0 < (findallCount (p.keywords.map wordsOf) toks : ℚ) * p.weight
  · rw [if_pos hpos] at hf
    exact ⟨p, hp, (Option.some_injective _ hf).symm, hpos⟩
  · rw [if_neg hpos] at hf
    exact absurd hf (by simp)

/-- Every stored score is at least `0.8` (one match of the lightest
category) and in particular positive. -/
theorem score_weight_ge {toks : List String} {pr : String × ℚ}
    (h : pr ∈ categoryScores toks) : 8/10 ≤ pr.2 ∧ 0 < pr.2 := by
  obtain ⟨p, hp, heq, hpos⟩ := mem_categoryScores h
  have hw : 8/10 ≤ p.weight := by
    have hall : ∀ q ∈ categoryPatterns, 8/10 ≤ q.weight := by decide
    exact hall p hp
  have hn1 : (1 : ℚ) ≤ (findallCount (p.keywords.map wordsOf) toks : ℚ) := by
    rcases Nat.eq_zero_or_pos (findallCount (p.keywords.map wordsOf) toks) with h0 | h1
    · rw [h0] at hpos
      norm_num at hpos
    · exact_mod_cast h1
  have hscore :
      8/10 ≤ (findallCount (p.keywords.map wordsOf) toks : ℚ) * p.weight := by
    calc (8/10 : ℚ) ≤ p.weight := hw
      _ ≤ (findallCount (p.keywords.map wordsOf) toks : ℚ) * p.weight :=
        le_mul_of_one_le_left (by linarith) hn1
  rw [heq]
  exact ⟨hscore, hpos⟩

/-- All entries of the score map are nonnegative (used for summing). -/
theorem categoryScores_snd_nonneg {toks : List String} {x : ℚ}
    (hx : x ∈ (categoryScores toks).map Prod.snd) : 0 ≤ x := by
  obtain ⟨pr, hpr, rfl⟩ := List.mem_map.mp hx
  exact le_of_lt (score_weight_ge hpr).2

/-- C10: whenever `categorize` finds at least one matching category, the
returned categories list is non-empty and contains the primary category
(the top score always passes its own 30% threshold), and every value of
the returned score map is strictly positive. -/
theorem categorize_matched_invariants (title body : String)
    (h : (categorize title body).scores ≠ []) :
    (categorize title body).categories ≠ [] ∧
    (categorize title body).primary_category ∈ (categorize title body).categories ∧
    (∀ s ∈ (categorize title body).scores, 0 < s.2) := by
  cases hsort : sortBy (fun a b => decide (b.2 ≤ a.2))
      (categoryScores (lowerWords (title ++ " " ++ body))) with
  | nil =>
    rw [categorize_eq_of_sort_nil hsort] at h
    exact absurd rfl h
  | cons hd tl =>
    obtain ⟨pc, ps⟩ := hd
    rw [categorize_eq_of_sort hsort]
    have hmem : (pc, ps) ∈ categoryScores (lowerWords (title ++ " " ++ body)) :=
      mem_sortBy (hsort ▸ List.mem_cons_self _ _)
    obtain ⟨hw8, hpos⟩ := score_weight_ge hmem
    have hkeep : decide (ps * (3/10) ≤ ((pc, ps) : String × ℚ).2) = true := by
      simp only [decide_eq_true_eq]
      nlinarith
    refine ⟨?_, ?_, ?_⟩
    · simp only [List.filter_cons, hkeep]
      simp
    · simp only [List.filter_cons, hkeep]
      simp
    · intro s hs
      obtain ⟨x, hx, rfl⟩ := List.mem_map.mp hs
      exact pyRound2_pos (score_weight_ge hx).1

theorem categorize_matched_invariants_witness :
    ((categorize "bug" "").scores ≠ []) ∧
    ((categorize "bug" "").categories ≠ [] ∧
     (categorize "bug" "").primary_category ∈ (categorize "bug" "").categories ∧
     (∀ s ∈ (categorize "bug" "").scores, 0 < s.2)) :=
  ⟨by decide, categorize_matched_invariants "bug" "" (by decide)⟩

/-- Title consisting of the word "bug" repeated 249 times: every word is
one keyword match of the `bug` category and of no other category. -/
def manyBugsTitle : String :=
  "bug bug bug bug bug bug bug bug bug bug bug bug bug bug bug bug bug bug bug bug bug bug bug bug bug bug bug bug bug bug bug bug bug bug bug bug bug bug bug bug bug bug bug bug bug bug bug bug bug bug bug bug bug bug bug bug bug bug bug bug bug bug bug bug bug bug bug bug bug bug bug bug bug bug bug bug bug bug bug bug bug bug bug bug bug bug bug bug bug bug bug bug bug bug bug bug bug bug bug bug bug bug bug bug bug bug bug bug bug bug bug bug bug bug bug bug bug bug bug bug bug bug bug bug bug bug bug bug bug bug bug bug bug bug bug bug bug bug bug bug bug bug bug bug bug bug bug bug bug bug bug bug bug bug bug bug bug bug bug bug bug bug bug bug bug bug bug bug bug bug bug bug bug bug bug bug bug bug bug bug bug bug bug bug bug bug bug bug bug bug bug bug bug bug bug bug bug bug bug bug bug bug bug bug bug bug bug bug bug bug bug bug bug bug bug bug bug bug bug bug bug bug bug bug bug bug bug bug bug bug bug bug bug bug bug bug bug bug bug bug bug bug bug bug bug bug bug bug bug"

set_option maxRecDepth 400000 in
/-- C7 (counterexample): on a title with 249 `bug` keyword matches the
single category score is `249`, the pre-rounding confidence is
`249/250 = 0.996`, and the *returned* confidence — `round(0.996, 2)` —
is exactly `1.0` although a category matched, contradicting the claimed
strict bound `confidence < 1.0`. -/
theorem categorize_confidence_hits_one :
    (categorize manyBugsTitle "").scores = [("bug", 249)] ∧
    (categorize manyBugsTitle "").confidence = 1 := by
  decide

/-- C7 (amended): the returned confidence always lies in `[0, 1]`, and
whenever at least one category matches the *pre-rounding* confidence
`min(top/(total+1), 1)` is strictly below `1`; the returned two-decimal
rounding of it can, however, reach exactly `1.0` (see the
counterexample). -/
theorem categorize_confidence_bounds (title body : String) :
    (0 ≤ (categorize title body).confidence ∧
      (categorize title body).confidence ≤ 1) ∧
    ((categorize title body).scores ≠ [] → rawConfidence title body < 1) := by
  cases hsort : sortBy (fun a b => decide (b.2 ≤ a.2))
      (categoryScores (lowerWords (title ++ " " ++ body))) with
  | nil =>
    rw [categorize_eq_of_sort_nil hsort]
    refine ⟨⟨by norm_num, by norm_num⟩, fun h => absurd rfl h⟩
  | cons hd tl =>
    obtain ⟨pc, ps⟩ := hd
    rw [categorize_eq_of_sort hsort, rawConfidence_eq_of_sort hsort]
    have hmem : (pc, ps) ∈ categoryScores (lowerWords (title ++ " " ++ body)) :=
      mem_sortBy (hsort ▸ List.mem_cons_self _ _)
    obtain ⟨hw8, hpos⟩ := score_weight_ge hmem
    have hsum : ps ≤ (((categoryScores (lowerWords (title ++ " " ++ body))).map
        Prod.snd).sum) :=
      List.single_le_sum (fun x hx => categoryScores_snd_nonneg hx) _
        (List.mem_map_of_mem Prod.snd hmem)
    have hT : (0 : ℚ) ≤ ((categoryScores (lowerWords (title ++ " " ++ body))).map
        Prod.snd).sum :=
      List.sum_nonneg fun x hx => categoryScores_snd_nonneg hx
    have hlt : ps / (((categoryScores (lowerWords (title ++ " " ++ body))).map
        Prod.snd).sum + 1) < 1 := by
      rw [div_lt_one (by linarith)]
      linarith
    have hnn : 0 ≤ ps / (((categoryScores (lowerWords (title ++ " " ++ body))).map
        Prod.snd).sum + 1) :=
      div_nonneg (le_of_lt hpos) (by linarith)
    refine ⟨⟨pyRound2_nonneg (le_min hnn zero_le_one),
      pyRound2_le_one (min_le_right _ _)⟩, fun _ => ?_⟩
    exact lt_of_le_of_lt (min_le_left _ _) hlt

theorem categorize_confidence_bounds_witness :
    (0 ≤ (categorize "bug" "").confidence ∧
      (categorize "bug" "").confidence ≤ 1) ∧
    ((categorize "bug" "").scores ≠ []) ∧
    rawConfidence "bug" "" < 1 :=
  ⟨(categorize_confidence_bounds "bug" "").1,
   by decide,
   (categorize_confidence_bounds "bug" "").2 (by decide)⟩
